import Mathlib

/-!
Formal model of the LFSM (Link Finite State Machine) kernel module,
a shallow embedding of src/lfsm.c and src/lfsm.h.

The module serializes link up/down requests through a bounded FIFO
(a kfifo of capacity 16), a dispatcher work item that drains it, two
transition work items that commit the new state after a simulated
latency, and a delayed watchdog work item that forces recovery on
timeout.  All shared fields are guarded by the spinlock lfsm_lock.

The embedding has two layers:

1. An atomic-effect model: each handler body (the code between taking
   and dropping lfsm_lock, together with the scheduling side effects)
   becomes a pure function on LfsmState.  Work items queued on the
   workqueue are modelled by pending flags, and an interleaving
   semantics runEvents executes handlers in any enabled order.

2. A lock-trace model: each C function is also transcribed as the
   sequence of locking-relevant operations it performs (acquire,
   release, blocking cancellation, sleep), so that the locking
   discipline claims can be checked against the source text.
-/

namespace LFSM

/-- Link states, from enum link_state in lfsm.h (the LINK_STATE_MAX
sentinel is a bound, not a state). -/
inductive link_state
| LINK_DOWN
| LINK_STARTING
| LINK_UP
| LINK_STOPPING
deriving DecidableEq

open link_state

/-- Action tags, from enum lfsm_action_type in lfsm.h (LFSM_ACT_MAX is a
bound, not an action). -/
inductive lfsm_action_type
| LFSM_ACT_LINK_UP
| LFSM_ACT_LINK_DOWN
deriving DecidableEq

open lfsm_action_type

/-- LFSM_DELAY_MS from lfsm.h: the simulated transition latency. -/
def LFSM_DELAY_MS : Nat := 1000

/-- LFSM_TIMEOUT_MS from lfsm.h: the watchdog timeout. -/
def LFSM_TIMEOUT_MS : Nat := 3 * LFSM_DELAY_MS

/-- Errno value EBUSY; the C code returns -EBUSY. -/
def EBUSY : Int := 16

/-- Errno value ENOSPC; the C code returns -ENOSPC. -/
def ENOSPC : Int := 28

/-- The shared state of the module: the kfifo lfsm_queue (capacity 16,
front of the list = next element out), link_lfsm_state, and
lfsm_work_active, all guarded by lfsm_lock; plus one pending flag per
work item that can sit on the workqueue lfsm_wq (lfsm_worker,
lfsm_up_work, lfsm_down_work) and the armed watchdog delay for
lfsm_timeout_work. -/
structure LfsmState where
  lfsm_queue : List lfsm_action_type
  link_lfsm_state : link_state
  lfsm_work_active : Bool
  pending_dispatch : Bool
  pending_up_work : Bool
  pending_down_work : Bool
  timeout_armed : Option Nat
deriving DecidableEq

/-- The state after lfsm_module_init: empty queue, LINK_DOWN, no active
dispatcher, nothing queued on the workqueue, watchdog disarmed. -/
def initState : LfsmState :=
  { lfsm_queue := []
    link_lfsm_state := LINK_DOWN
    lfsm_work_active := false
    pending_dispatch := false
    pending_up_work := false
    pending_down_work := false
    timeout_armed := none }

/-- enqueue_lfsm_action (lfsm.c lines 244-265): kfifo_in fails iff the
fifo already holds 16 elements, in which case the function returns
-ENOSPC and does nothing else; on success the action is appended at the
back, and if lfsm_work_active is false it is set to true and the
dispatcher work item lfsm_worker is queued.  Returns the new state and
the int result. -/
def enqueue_lfsm_action (ty : lfsm_action_type) (s : LfsmState) :
    LfsmState × Int :=
  if s.lfsm_queue.length < 16 then
    let s1 := { s with lfsm_queue := s.lfsm_queue ++ [ty] }
    if s1.lfsm_work_active then (s1, 0)
    else ({ s1 with lfsm_work_active := true, pending_dispatch := true }, 0)
  else (s, -ENOSPC)

/-- lfsm_link_up (lfsm.c lines 276-290): the atomic effect of the
critical section, ignoring the locking slip analysed separately in the
lock-trace model. -/
def lfsm_link_up (s : LfsmState) : LfsmState × Int :=
  if s.link_lfsm_state = LINK_DOWN then
    enqueue_lfsm_action LFSM_ACT_LINK_UP s
  else if s.link_lfsm_state = LINK_UP then (s, 0)
  else (s, -EBUSY)

/-- lfsm_link_down (lfsm.c lines 302-318). -/
def lfsm_link_down (s : LfsmState) : LfsmState × Int :=
  if s.link_lfsm_state = LINK_UP then
    enqueue_lfsm_action LFSM_ACT_LINK_DOWN s
  else if s.link_lfsm_state = LINK_DOWN then (s, 0)
  else (s, -EBUSY)

/-- lfsm_get_link_state (lfsm.c lines 327-337): snapshot read. -/
def lfsm_get_link_state (s : LfsmState) : link_state :=
  s.link_lfsm_state

/-- Body of lfsm_dispatch_worker (lfsm.c lines 209-240): kfifo_out of one
element; an empty fifo clears lfsm_work_active and returns; otherwise the
popped tag selects the transient state, arms the watchdog with
LFSM_TIMEOUT_MS, and queues the matching transition work item.  The
action type is closed, so the default branch of the C switch is
unreachable and has no counterpart here. -/
def lfsm_dispatch_worker (s : LfsmState) : LfsmState :=
  match s.lfsm_queue with
  | [] => { s with lfsm_work_active := false }
  | act :: rest =>
    match act with
    | LFSM_ACT_LINK_UP =>
        { s with
          lfsm_queue := rest
          link_lfsm_state := LINK_STARTING
          timeout_armed := some LFSM_TIMEOUT_MS
          pending_up_work := true }
    | LFSM_ACT_LINK_DOWN =>
        { s with
          lfsm_queue := rest
          link_lfsm_state := LINK_STOPPING
          timeout_armed := some LFSM_TIMEOUT_MS
          pending_down_work := true }

/-- Body of lfsm_up_worker (lfsm.c lines 178-191), after the msleep:
cancel the watchdog, commit LINK_UP unconditionally, and queue the
dispatcher again.  The notifier calls outside the lock touch no modelled
state. -/
def lfsm_up_worker (s : LfsmState) : LfsmState :=
  { s with
    timeout_armed := none
    link_lfsm_state := LINK_UP
    pending_dispatch := true }

/-- Body of lfsm_down_worker (lfsm.c lines 193-206). -/
def lfsm_down_worker (s : LfsmState) : LfsmState :=
  { s with
    timeout_armed := none
    link_lfsm_state := LINK_DOWN
    pending_dispatch := true }

/-- Body of lfsm_timeout_worker (lfsm.c lines 163-175): cancel the two
transition work items (lfsm_worker, the dispatcher, is not cancelled),
reset the fifo, force LINK_DOWN, clear lfsm_work_active. -/
def lfsm_timeout_worker (s : LfsmState) : LfsmState :=
  { s with
    pending_up_work := false
    pending_down_work := false
    lfsm_queue := []
    link_lfsm_state := LINK_DOWN
    lfsm_work_active := false }

/-- lfsm_force_down (lfsm.c lines 349-363): synchronously cancel the
dispatcher, both transition work items and the watchdog, then reset the
fifo, force LINK_DOWN and clear lfsm_work_active. -/
def lfsm_force_down (s : LfsmState) : LfsmState :=
  { s with
    pending_dispatch := false
    pending_up_work := false
    pending_down_work := false
    timeout_armed := none
    lfsm_queue := []
    link_lfsm_state := LINK_DOWN
    lfsm_work_active := false }

/-- Schedulable units of the interleaving semantics: the two public
requests plus the four work-item handlers. -/
inductive LfsmEvent
| EvLinkUp
| EvLinkDown
| EvDispatch
| EvUpWork
| EvDownWork
| EvTimeout
| EvForceDown
deriving DecidableEq

open LfsmEvent

/-- A handler can run only when its work item is pending (the watchdog
only when armed); the public entry points can always be called. -/
def enabled : LfsmEvent → LfsmState → Bool
| EvLinkUp, _ => true
| EvLinkDown, _ => true
| EvDispatch, s => s.pending_dispatch
| EvUpWork, s => s.pending_up_work
| EvDownWork, s => s.pending_down_work
| EvTimeout, s => s.timeout_armed.isSome
| EvForceDown, _ => true

/-- Running an event: a work-item handler first comes off the workqueue
(its pending flag drops, the firing watchdog disarms itself), then its
body runs. -/
def applyEvent : LfsmEvent → LfsmState → LfsmState
| EvLinkUp, s => (lfsm_link_up s).1
| EvLinkDown, s => (lfsm_link_down s).1
| EvDispatch, s => lfsm_dispatch_worker { s with pending_dispatch := false }
| EvUpWork, s => lfsm_up_worker { s with pending_up_work := false }
| EvDownWork, s => lfsm_down_worker { s with pending_down_work := false }
| EvTimeout, s => lfsm_timeout_worker { s with timeout_armed := none }
| EvForceDown, s => lfsm_force_down s

/-- One scheduler step: a disabled event does nothing. -/
def stepE (e : LfsmEvent) (s : LfsmState) : LfsmState :=
  if enabled e s then applyEvent e s else s

/-- Execution from an arbitrary start state. -/
def runFrom (s : LfsmState) (evs : List LfsmEvent) : LfsmState :=
  evs.foldl (fun t e => stepE e t) s

/-- Execution from the post-init state. -/
def runEvents (evs : List LfsmEvent) : LfsmState :=
  runFrom initState evs

/-- Events generated by request_up/request_down-driven executions: the
watchdog never fires (no worker is ever stuck in the model) and
force_down is not called. -/
def normalEv : LfsmEvent → Bool
| EvTimeout => false
| EvForceDown => false
| _ => true

/-- Edges of the state diagram claimed by the specification:
Down to Starting to Up to Stopping to Down. -/
def cycleEdge : link_state → link_state → Bool
| LINK_DOWN, LINK_STARTING => true
| LINK_STARTING, LINK_UP => true
| LINK_UP, LINK_STOPPING => true
| LINK_STOPPING, LINK_DOWN => true
| _, _ => false

/-- State changes actually possible in request-driven executions: a
transient state is entered from either settled state (a duplicate
request accepted before the dispatcher ran re-enters Starting from Up,
or Stopping from Down) and is left only towards its own settled
target. -/
def reqEdge : link_state → link_state → Bool
| LINK_DOWN, LINK_STARTING => true
| LINK_UP, LINK_STARTING => true
| LINK_DOWN, LINK_STOPPING => true
| LINK_UP, LINK_STOPPING => true
| LINK_STARTING, LINK_UP => true
| LINK_STOPPING, LINK_DOWN => true
| _, _ => false

/-- The inductive invariant of the interleaving semantics: a pending
transition work item matches the transient state and vice versa, at most
one of dispatcher/up/down work is pending, an idle dispatcher flag means
nothing is pending and the queue is empty, and the watchdog is armed
only while a transition work item is pending. -/
def LfsmInv (s : LfsmState) : Prop :=
  (s.pending_up_work = true → s.link_lfsm_state = LINK_STARTING) ∧
  (s.pending_down_work = true → s.link_lfsm_state = LINK_STOPPING) ∧
  (s.link_lfsm_state = LINK_STARTING → s.pending_up_work = true) ∧
  (s.link_lfsm_state = LINK_STOPPING → s.pending_down_work = true) ∧
  (s.lfsm_work_active = false →
    s.pending_dispatch = false ∧ s.pending_up_work = false ∧
    s.pending_down_work = false ∧ s.lfsm_queue = []) ∧
  (s.pending_dispatch = true →
    s.pending_up_work = false ∧ s.pending_down_work = false) ∧
  (s.pending_up_work = true →
    s.pending_dispatch = false ∧ s.pending_down_work = false) ∧
  (s.pending_down_work = true →
    s.pending_dispatch = false ∧ s.pending_up_work = false) ∧
  (s.timeout_armed.isSome = true →
    s.pending_up_work = true ∨ s.pending_down_work = true)

/-- Sequence of enqueue_lfsm_action calls, collecting the return codes
in call order. -/
def enqueueRun : List lfsm_action_type → LfsmState → LfsmState × List Int
| [], s => (s, [])
| a :: rest, s =>
    let p := enqueue_lfsm_action a s
    let q := enqueueRun rest p.1
    (q.1, p.2 :: q.2)

/-- Locking-relevant operations a function of lfsm.c can perform on its
way through: taking or dropping lfsm_lock, a cancellation that can block
waiting for in-flight work (cancel_work_sync, cancel_delayed_work_sync),
an msleep, or any non-blocking operation (kfifo access, assignments,
queue_work, queue_delayed_work, printing). -/
inductive LockOp
| op_lock
| op_unlock
| op_cancel_sync
| op_msleep
| op_other
deriving DecidableEq

open LockOp

/-- Trace of enqueue_lfsm_action (lfsm.c lines 244-265):
spin_lock_irqsave, kfifo_in, the active-flag check with queue_work,
pr_info, spin_unlock_irqrestore. -/
def enqueue_lfsm_action_trace : List LockOp :=
  [op_lock, op_other, op_other, op_other, op_unlock]

/-- Trace of lfsm_link_up (lfsm.c lines 276-290): spin_lock_irqsave, then
on LINK_DOWN the full call to enqueue_lfsm_action, otherwise just the
assignment of ret, then spin_unlock_irqrestore. -/
def lfsm_link_up_trace (st : link_state) : List LockOp :=
  [op_lock] ++
    (if st = LINK_DOWN then enqueue_lfsm_action_trace else [op_other]) ++
    [op_unlock]

/-- Trace of lfsm_link_down (lfsm.c lines 302-318). -/
def lfsm_link_down_trace (st : link_state) : List LockOp :=
  [op_lock] ++
    (if st = LINK_UP then enqueue_lfsm_action_trace else [op_other]) ++
    [op_unlock]

/-- Trace of lfsm_timeout_worker (lfsm.c lines 163-175): spin_lock,
pr_warn, cancel_work_sync on lfsm_up_work, cancel_work_sync on
lfsm_down_work, kfifo_reset, two assignments, spin_unlock. -/
def lfsm_timeout_worker_trace : List LockOp :=
  [op_lock, op_other, op_cancel_sync, op_cancel_sync,
   op_other, op_other, op_other, op_unlock]

/-- Trace of lfsm_up_worker (lfsm.c lines 178-191): msleep, spin_lock,
cancel_delayed_work_sync on lfsm_timeout_work, assignment, pr_info,
queue_work, spin_unlock, then the two notification calls. -/
def lfsm_up_worker_trace : List LockOp :=
  [op_msleep, op_lock, op_cancel_sync, op_other, op_other, op_other,
   op_unlock, op_other, op_other]

/-- Trace of lfsm_down_worker (lfsm.c lines 193-206). -/
def lfsm_down_worker_trace : List LockOp :=
  [op_msleep, op_lock, op_cancel_sync, op_other, op_other, op_other,
   op_unlock, op_other, op_other]

/-- Trace of lfsm_dispatch_worker (lfsm.c lines 209-240), by branch:
empty fifo clears the flag and returns; otherwise state assignment,
queue_delayed_work, queue_work (all non-blocking). -/
def lfsm_dispatch_worker_trace (queueEmpty : Bool) : List LockOp :=
  if queueEmpty then [op_lock, op_other, op_unlock]
  else [op_lock, op_other, op_other, op_other, op_other, op_unlock]

/-- Trace of lfsm_get_link_state (lfsm.c lines 327-337). -/
def lfsm_get_link_state_trace : List LockOp :=
  [op_lock, op_other, op_unlock]

/-- Trace of lfsm_force_down (lfsm.c lines 349-363): the four synchronous
cancellations happen before the lock is taken. -/
def lfsm_force_down_trace : List LockOp :=
  [op_cancel_sync, op_cancel_sync, op_cancel_sync, op_cancel_sync,
   op_lock, op_other, op_other, op_other, op_unlock]

/-- Walk a trace with the current lfsm_lock depth, checking that no
operation that can block (a synchronous cancellation or an msleep) is
performed while the lock is held. -/
def blockFreeUnderLockAux : List LockOp → Nat → Bool
| [], _ => true
| op_lock :: r, d => blockFreeUnderLockAux r (d + 1)
| op_unlock :: r, d => blockFreeUnderLockAux r (d - 1)
| op_cancel_sync :: r, d => decide (d = 0) && blockFreeUnderLockAux r d
| op_msleep :: r, d => decide (d = 0) && blockFreeUnderLockAux r d
| op_other :: r, d => blockFreeUnderLockAux r d

/-- No blocking operation while holding lfsm_lock. -/
def blockFreeUnderLock (tr : List LockOp) : Bool :=
  blockFreeUnderLockAux tr 0

/-- Walk a trace checking that lfsm_lock, a non-recursive spinlock, is
never acquired while already held. -/
def noNestedLockAux : List LockOp → Nat → Bool
| [], _ => true
| op_lock :: r, d => decide (d = 0) && noNestedLockAux r (d + 1)
| op_unlock :: r, d => noNestedLockAux r (d - 1)
| _ :: r, d => noNestedLockAux r d

/-- The trace never re-acquires the already-held lfsm_lock. -/
def noNestedLock (tr : List LockOp) : Bool :=
  noNestedLockAux tr 0

/-- True of operations that can suspend: synchronous cancellation and
msleep. -/
def isBlockingOp : LockOp → Bool
| op_cancel_sync => true
| op_msleep => true
| _ => false

/-- The trace contains no operation that can suspend at all. -/
def neverBlocks (tr : List LockOp) : Bool :=
  tr.all (fun o => !isBlockingOp o)

end LFSM

namespace LFSM

open link_state lfsm_action_type LfsmEvent LockOp

instance (s : LfsmState) : Decidable (LfsmInv s) := by
  unfold LfsmInv
  infer_instance

/-- The post-init state satisfies the invariant. -/
theorem inv_initState : LfsmInv initState := by decide

/-- enqueue_lfsm_action preserves the invariant. -/
theorem inv_enqueue (ty : lfsm_action_type) (s : LfsmState)
    (h : LfsmInv s) : LfsmInv (enqueue_lfsm_action ty s).1 := by
  obtain ⟨h1, h2, h3, h4, h5, h6, h7, h8, h9⟩ := h
  unfold enqueue_lfsm_action
  by_cases hl : s.lfsm_queue.length < 16
  · by_cases ha : s.lfsm_work_active
    · simp only [if_pos hl, ha, if_true]
      exact ⟨h1, h2, h3, h4, by simp [ha], h6, h7, h8, h9⟩
    · have ⟨hpd, hpu, hpdn, _⟩ := h5 (by simpa using ha)
      simp only [if_pos hl, ha, if_false]
      refine ⟨h1, h2, h3, h4, by simp, ?_, ?_, ?_, ?_⟩
      · intro _
        exact ⟨hpu, hpdn⟩
      · intro hc
        simp [hpu] at hc
      · intro hc
        simp [hpdn] at hc
      · intro harm
        rcases h9 harm with hc | hc
        · simp [hpu] at hc
        · simp [hpdn] at hc
  · simp only [if_neg hl]
    exact ⟨h1, h2, h3, h4, h5, h6, h7, h8, h9⟩

end LFSM

namespace LFSM

open link_state lfsm_action_type LfsmEvent LockOp

/-- enqueue_lfsm_action does not change the link state. -/
theorem enqueue_state_eq (ty : lfsm_action_type) (s : LfsmState) :
    (enqueue_lfsm_action ty s).1.link_lfsm_state = s.link_lfsm_state := by
  unfold enqueue_lfsm_action
  by_cases hl : s.lfsm_queue.length < 16 <;>
    by_cases ha : s.lfsm_work_active <;> simp [hl, ha]

/-- lfsm_link_up does not change the link state. -/
theorem link_up_state_eq (s : LfsmState) :
    (lfsm_link_up s).1.link_lfsm_state = s.link_lfsm_state := by
  unfold lfsm_link_up
  split_ifs <;> simp [enqueue_state_eq]

/-- lfsm_link_down does not change the link state. -/
theorem link_down_state_eq (s : LfsmState) :
    (lfsm_link_down s).1.link_lfsm_state = s.link_lfsm_state := by
  unfold lfsm_link_down
  split_ifs <;> simp [enqueue_state_eq]

/-- The dispatcher body preserves the invariant when run on a state in
which it is the only pending work item and the watchdog is disarmed. -/
theorem inv_dispatch_body (t : LfsmState)
    (hpd : t.pending_dispatch = false)
    (hup : t.pending_up_work = false)
    (hdn : t.pending_down_work = false)
    (ha : t.lfsm_work_active = true)
    (harm : t.timeout_armed = none)
    (hst : t.link_lfsm_state ≠ LINK_STARTING)
    (hsp : t.link_lfsm_state ≠ LINK_STOPPING) :
    LfsmInv (lfsm_dispatch_worker t) := by
  unfold lfsm_dispatch_worker
  cases hq : t.lfsm_queue with
  | nil =>
      refine ⟨fun hc => ?_, fun hc => ?_, fun hc => ?_, fun hc => ?_,
        fun hc => ?_, fun hc => ?_, fun hc => ?_, fun hc => ?_,
        fun hc => ?_⟩ <;> simp_all
  | cons act rest =>
      cases act with
      | LFSM_ACT_LINK_UP =>
          refine ⟨fun hc => ?_, fun hc => ?_, fun hc => ?_, fun hc => ?_,
            fun hc => ?_, fun hc => ?_, fun hc => ?_, fun hc => ?_,
            fun hc => ?_⟩ <;> simp_all
      | LFSM_ACT_LINK_DOWN =>
          refine ⟨fun hc => ?_, fun hc => ?_, fun hc => ?_, fun hc => ?_,
            fun hc => ?_, fun hc => ?_, fun hc => ?_, fun hc => ?_,
            fun hc => ?_⟩ <;> simp_all

/-- The up-worker body preserves the invariant when no work item is
pending and the dispatcher flag is set. -/
theorem inv_up_body (t : LfsmState)
    (hpu : t.pending_up_work = false)
    (hdn : t.pending_down_work = false)
    (ha : t.lfsm_work_active = true) :
    LfsmInv (lfsm_up_worker t) := by
  unfold lfsm_up_worker
  refine ⟨fun hc => ?_, fun hc => ?_, fun hc => ?_, fun hc => ?_,
    fun hc => ?_, fun hc => ?_, fun hc => ?_, fun hc => ?_,
    fun hc => ?_⟩ <;> simp_all

/-- The down-worker body preserves the invariant under the same side
conditions. -/
theorem inv_down_body (t : LfsmState)
    (hpu : t.pending_up_work = false)
    (hdn : t.pending_down_work = false)
    (ha : t.lfsm_work_active = true) :
    LfsmInv (lfsm_down_worker t) := by
  unfold lfsm_down_worker
  refine ⟨fun hc => ?_, fun hc => ?_, fun hc => ?_, fun hc => ?_,
    fun hc => ?_, fun hc => ?_, fun hc => ?_, fun hc => ?_,
    fun hc => ?_⟩ <;> simp_all

/-- The watchdog body preserves the invariant when the dispatcher is not
pending and the timer has disarmed itself. -/
theorem inv_timeout_body (t : LfsmState)
    (hpd : t.pending_dispatch = false)
    (harm : t.timeout_armed = none) :
    LfsmInv (lfsm_timeout_worker t) := by
  unfold lfsm_timeout_worker
  refine ⟨fun hc => ?_, fun hc => ?_, fun hc => ?_, fun hc => ?_,
    fun hc => ?_, fun hc => ?_, fun hc => ?_, fun hc => ?_,
    fun hc => ?_⟩ <;> simp_all

/-- lfsm_force_down establishes the invariant from any state. -/
theorem inv_force_body (t : LfsmState) : LfsmInv (lfsm_force_down t) := by
  unfold lfsm_force_down
  refine ⟨fun hc => ?_, fun hc => ?_, fun hc => ?_, fun hc => ?_,
    fun hc => ?_, fun hc => ?_, fun hc => ?_, fun hc => ?_,
    fun hc => ?_⟩ <;> simp_all

/-- Every scheduler step preserves the invariant. -/
theorem inv_stepE (e : LfsmEvent) (s : LfsmState) (h : LfsmInv s) :
    LfsmInv (stepE e s) := by
  obtain ⟨h1, h2, h3, h4, h5, h6, h7, h8, h9⟩ := h
  cases e with
  | EvLinkUp =>
      show LfsmInv (lfsm_link_up s).1
      unfold lfsm_link_up
      split_ifs
      · exact inv_enqueue _ _ ⟨h1, h2, h3, h4, h5, h6, h7, h8, h9⟩
      · exact ⟨h1, h2, h3, h4, h5, h6, h7, h8, h9⟩
      · exact ⟨h1, h2, h3, h4, h5, h6, h7, h8, h9⟩
  | EvLinkDown =>
      show LfsmInv (lfsm_link_down s).1
      unfold lfsm_link_down
      split_ifs
      · exact inv_enqueue _ _ ⟨h1, h2, h3, h4, h5, h6, h7, h8, h9⟩
      · exact ⟨h1, h2, h3, h4, h5, h6, h7, h8, h9⟩
      · exact ⟨h1, h2, h3, h4, h5, h6, h7, h8, h9⟩
  | EvDispatch =>
      by_cases hpd : s.pending_dispatch = true
      · have hup : s.pending_up_work = false := (h6 hpd).1
        have hdn : s.pending_down_work = false := (h6 hpd).2
        have ha : s.lfsm_work_active = true := by
          by_contra hc
          have := (h5 (by simpa using hc)).1
          simp [hpd] at this
        have harm : s.timeout_armed = none := by
          cases ht : s.timeout_armed with
          | none => rfl
          | some v =>
              rcases h9 (by simp [ht]) with hc | hc
              · simp [hup] at hc
              · simp [hdn] at hc
        have hst : s.link_lfsm_state ≠ LINK_STARTING := fun hc => by
          simp [h3 hc] at hup
        have hsp : s.link_lfsm_state ≠ LINK_STOPPING := fun hc => by
          simp [h4 hc] at hdn
        simp only [stepE, enabled, hpd, if_true]
        exact inv_dispatch_body { s with pending_dispatch := false }
          rfl hup hdn ha harm hst hsp
      · simp only [stepE, enabled, hpd, if_false]
        exact ⟨h1, h2, h3, h4, h5, h6, h7, h8, h9⟩
  | EvUpWork =>
      by_cases hpu : s.pending_up_work = true
      · have hdn : s.pending_down_work = false := (h7 hpu).2
        have ha : s.lfsm_work_active = true := by
          by_contra hc
          have := (h5 (by simpa using hc)).2.1
          simp [hpu] at this
        simp only [stepE, enabled, hpu, if_true]
        exact inv_up_body { s with pending_up_work := false } rfl hdn ha
      · simp only [stepE, enabled, hpu, if_false]
        exact ⟨h1, h2, h3, h4, h5, h6, h7, h8, h9⟩
  | EvDownWork =>
      by_cases hpn : s.pending_down_work = true
      · have hup : s.pending_up_work = false := (h8 hpn).2
        have ha : s.lfsm_work_active = true := by
          by_contra hc
          have := (h5 (by simpa using hc)).2.2.1
          simp [hpn] at this
        simp only [stepE, enabled, hpn, if_true]
        exact inv_down_body { s with pending_down_work := false } hup rfl ha
      · simp only [stepE, enabled, hpn, if_false]
        exact ⟨h1, h2, h3, h4, h5, h6, h7, h8, h9⟩
  | EvTimeout =>
      by_cases harm : s.timeout_armed.isSome = true
      · have hpd : s.pending_dispatch = false := by
          rcases h9 harm with hc | hc
          · exact (h7 hc).1
          · exact (h8 hc).1
        simp only [stepE, enabled, harm, if_true]
        exact inv_timeout_body { s with timeout_armed := none } hpd rfl
      · simp only [stepE, enabled, harm, if_false]
        exact ⟨h1, h2, h3, h4, h5, h6, h7, h8, h9⟩
  | EvForceDown =>
      show LfsmInv (lfsm_force_down s)
      exact inv_force_body s

/-- Running any event list preserves the invariant. -/
theorem inv_runFrom (evs : List LfsmEvent) :
    ∀ s : LfsmState, LfsmInv s → LfsmInv (runFrom s evs) := by
  induction evs with
  | nil => intro s h; exact h
  | cons e r ih =>
      intro s h
      have hr : runFrom s (e :: r) = runFrom (stepE e s) r := rfl
      rw [hr]
      exact ih _ (inv_stepE e s h)

/-- Every state reachable from the post-init state satisfies the
invariant. -/
theorem inv_runEvents (evs : List LfsmEvent) : LfsmInv (runEvents evs) :=
  inv_runFrom evs initState inv_initState

end LFSM

namespace LFSM

open link_state lfsm_action_type LfsmEvent LockOp

/-- When the dispatcher body runs from a non-transient state, any state
change it makes follows a reqEdge edge. -/
theorem dispatch_edge (t : LfsmState)
    (hst : t.link_lfsm_state ≠ LINK_STARTING)
    (hsp : t.link_lfsm_state ≠ LINK_STOPPING)
    (hne : (lfsm_dispatch_worker t).link_lfsm_state ≠ t.link_lfsm_state) :
    reqEdge t.link_lfsm_state (lfsm_dispatch_worker t).link_lfsm_state
      = true := by
  unfold lfsm_dispatch_worker at hne ⊢
  cases hq : t.lfsm_queue with
  | nil => simp [hq] at hne
  | cons act rest =>
      cases act with
      | LFSM_ACT_LINK_UP =>
          cases hts : t.link_lfsm_state <;> simp_all [reqEdge]
      | LFSM_ACT_LINK_DOWN =>
          cases hts : t.link_lfsm_state <;> simp_all [reqEdge]

/-- Any state change made by a request-driven step out of an invariant
state follows a reqEdge edge. -/
theorem stepE_edge (e : LfsmEvent) (s : LfsmState) (h : LfsmInv s)
    (hn : normalEv e = true)
    (hne : (stepE e s).link_lfsm_state ≠ s.link_lfsm_state) :
    reqEdge s.link_lfsm_state (stepE e s).link_lfsm_state = true := by
  obtain ⟨h1, h2, h3, h4, h5, h6, h7, h8, h9⟩ := h
  cases e with
  | EvLinkUp => exact absurd (link_up_state_eq s) hne
  | EvLinkDown => exact absurd (link_down_state_eq s) hne
  | EvDispatch =>
      by_cases hpd : s.pending_dispatch = true
      · have hup : s.pending_up_work = false := (h6 hpd).1
        have hdn : s.pending_down_work = false := (h6 hpd).2
        have hst : s.link_lfsm_state ≠ LINK_STARTING := fun hc => by
          simp [h3 hc] at hup
        have hsp : s.link_lfsm_state ≠ LINK_STOPPING := fun hc => by
          simp [h4 hc] at hdn
        have hred : stepE EvDispatch s =
            lfsm_dispatch_worker { s with pending_dispatch := false } := by
          simp [stepE, enabled, hpd, applyEvent]
        rw [hred] at hne ⊢
        exact dispatch_edge { s with pending_dispatch := false } hst hsp hne
      · have hred : stepE EvDispatch s = s := by
          simp [stepE, enabled, hpd]
        rw [hred] at hne
        exact absurd rfl hne
  | EvUpWork =>
      by_cases hpu : s.pending_up_work = true
      · have hst : s.link_lfsm_state = LINK_STARTING := h1 hpu
        have hred : stepE EvUpWork s =
            lfsm_up_worker { s with pending_up_work := false } := by
          simp [stepE, enabled, hpu, applyEvent]
        rw [hred, hst]
        rfl
      · have hred : stepE EvUpWork s = s := by
          simp [stepE, enabled, hpu]
        rw [hred] at hne
        exact absurd rfl hne
  | EvDownWork =>
      by_cases hpn : s.pending_down_work = true
      · have hst : s.link_lfsm_state = LINK_STOPPING := h2 hpn
        have hred : stepE EvDownWork s =
            lfsm_down_worker { s with pending_down_work := false } := by
          simp [stepE, enabled, hpn, applyEvent]
        rw [hred, hst]
        rfl
      · have hred : stepE EvDownWork s = s := by
          simp [stepE, enabled, hpn]
        rw [hred] at hne
        exact absurd rfl hne
  | EvTimeout => simp [normalEv] at hn
  | EvForceDown => simp [normalEv] at hn

end LFSM

namespace LFSM

open link_state lfsm_action_type LfsmEvent LockOp

/-- Claim C2, counterexample: two request_up calls issued while the state
is still Down are both accepted (the second also sees LINK_DOWN and
returns 0), leaving two BringUp actions queued; after the first one
completes the state is Up, and dispatching the duplicate moves the state
from Up back to Starting, a transition that is not on the claimed cycle
Down, Starting, Up, Stopping. -/
theorem c2_counterexample :
    (lfsm_link_up (runEvents [EvLinkUp])).2 = 0 ∧
    (runEvents [EvLinkUp, EvLinkUp]).lfsm_queue =
      [LFSM_ACT_LINK_UP, LFSM_ACT_LINK_UP] ∧
    (runEvents [EvLinkUp, EvLinkUp, EvDispatch, EvUpWork]).link_lfsm_state
      = LINK_UP ∧
    runEvents [EvLinkUp, EvLinkUp, EvDispatch, EvUpWork, EvDispatch] =
      stepE EvDispatch
        (runEvents [EvLinkUp, EvLinkUp, EvDispatch, EvUpWork]) ∧
    (runEvents [EvLinkUp, EvLinkUp, EvDispatch, EvUpWork,
        EvDispatch]).link_lfsm_state = LINK_STARTING ∧
    cycleEdge LINK_UP LINK_STARTING = false := by decide

/-- Claim C2 (amended): in every reachable state in which the queue is
empty and neither transition work item is pending, the state is settled
(not Starting and not Stopping); and every state change made by a
request-driven step follows one of the edges Down to Starting, Up to
Starting, Down to Stopping, Up to Stopping, Starting to Up, Stopping to
Down — the original four-edge cycle is extended by re-entries of a
transient state from the wrong settled state, which duplicate requests
accepted before the dispatcher has run make reachable. -/
theorem c2_settled_states_and_edges :
    (∀ evs : List LfsmEvent,
       (runEvents evs).lfsm_queue = [] →
       (runEvents evs).pending_up_work = false →
       (runEvents evs).pending_down_work = false →
       (runEvents evs).link_lfsm_state ≠ LINK_STARTING ∧
       (runEvents evs).link_lfsm_state ≠ LINK_STOPPING) ∧
    (∀ (evs : List LfsmEvent) (e : LfsmEvent), normalEv e = true →
       (stepE e (runEvents evs)).link_lfsm_state ≠
         (runEvents evs).link_lfsm_state →
       reqEdge (runEvents evs).link_lfsm_state
         (stepE e (runEvents evs)).link_lfsm_state = true) := by
  constructor
  · intro evs hqe hup hdn
    obtain ⟨h1, h2, h3, h4, h5, h6, h7, h8, h9⟩ := inv_runEvents evs
    constructor
    · intro hc
      simp [h3 hc] at hup
    · intro hc
      simp [h4 hc] at hdn
  · intro evs e hn hne
    exact stepE_edge e (runEvents evs) (inv_runEvents evs) hn hne

/-- Concrete instantiation of the settled-state and edge properties: the
initial state is settled, and the commit of the first up transition is
the edge Starting to Up. -/
theorem c2_settled_states_and_edges_witness :
    ((runEvents []).link_lfsm_state ≠ LINK_STARTING ∧
     (runEvents []).link_lfsm_state ≠ LINK_STOPPING) ∧
    reqEdge (runEvents [EvLinkUp, EvDispatch]).link_lfsm_state
      (stepE EvUpWork (runEvents [EvLinkUp, EvDispatch])).link_lfsm_state
      = true :=
  ⟨c2_settled_states_and_edges.1 [] (by decide) (by decide) (by decide),
   c2_settled_states_and_edges.2 [EvLinkUp, EvDispatch] EvUpWork
     (by decide) (by decide)⟩

end LFSM

namespace LFSM

open link_state lfsm_action_type LfsmEvent LockOp

/-- Claim C3, counterexample: the recovery handler cancels only the two
transition work items; a pending dispatcher invocation survives it, so
the claim that it also cancels the Dispatcher is false.  (lfsm.c lines
163-175 contain cancel_work_sync calls for lfsm_up_work and
lfsm_down_work but none for lfsm_worker.) -/
theorem c3_counterexample :
    (lfsm_timeout_worker
      { lfsm_queue := [LFSM_ACT_LINK_DOWN]
        link_lfsm_state := LINK_STARTING
        lfsm_work_active := true
        pending_dispatch := true
        pending_up_work := true
        pending_down_work := false
        timeout_armed := none }).pending_up_work = false ∧
    (lfsm_timeout_worker
      { lfsm_queue := [LFSM_ACT_LINK_DOWN]
        link_lfsm_state := LINK_STARTING
        lfsm_work_active := true
        pending_dispatch := true
        pending_up_work := true
        pending_down_work := false
        timeout_armed := none }).pending_dispatch = true := by decide

/-- Claim C3 (amended): when the watchdog fires, the recovery handler
cancels both Transition Workers but not the Dispatcher (whose pending
status it leaves untouched), clears the entire queue, forces the state
to Down and clears the active flag; a subsequent request_up is accepted:
it returns 0 and enqueues the BringUp action. -/
theorem c3_watchdog_recovery (s : LfsmState) :
    (lfsm_timeout_worker s).pending_up_work = false ∧
    (lfsm_timeout_worker s).pending_down_work = false ∧
    (lfsm_timeout_worker s).pending_dispatch = s.pending_dispatch ∧
    (lfsm_timeout_worker s).lfsm_queue = [] ∧
    (lfsm_timeout_worker s).link_lfsm_state = LINK_DOWN ∧
    (lfsm_timeout_worker s).lfsm_work_active = false ∧
    (lfsm_link_up (lfsm_timeout_worker s)).2 = 0 ∧
    (lfsm_link_up (lfsm_timeout_worker s)).1.lfsm_queue =
      [LFSM_ACT_LINK_UP] := by
  refine ⟨rfl, rfl, rfl, rfl, rfl, rfl, ?_, ?_⟩ <;>
    simp [lfsm_timeout_worker, lfsm_link_up, enqueue_lfsm_action]

/-- Claim C4, counterexample: the up worker body commits LINK_UP even
when the prior state is LINK_DOWN (as after a watchdog recovery), so no
ownership re-validation of the expected transient state happens before
the commit.  (lfsm.c lines 178-191 assign link_lfsm_state with no check
of its current value.) -/
theorem c4_counterexample :
    initState.link_lfsm_state = LINK_DOWN ∧
    initState.link_lfsm_state ≠ LINK_STARTING ∧
    (lfsm_up_worker initState).link_lfsm_state = LINK_UP := by decide

/-- Claim C4 (amended): the transition worker bodies perform no
re-validation of the prior transient state; each commits its final state
unconditionally, from any prior state.  (Stale re-entry is instead
prevented by the synchronous cancel_work_sync calls in the watchdog and
force_down paths.) -/
theorem c4_workers_commit_unconditionally (s : LfsmState) :
    (lfsm_up_worker s).link_lfsm_state = LINK_UP ∧
    (lfsm_down_worker s).link_lfsm_state = LINK_DOWN :=
  ⟨rfl, rfl⟩

/-- Claim C5: immediately after lfsm_force_down the observable state is
Down, the queue is empty, the active flag is cleared, no work item
remains pending and the watchdog is disarmed, whatever the prior state;
and a second call from the resulting state changes nothing. -/
theorem c5_force_down_synchronous_idempotent (s : LfsmState) :
    lfsm_get_link_state (lfsm_force_down s) = LINK_DOWN ∧
    (lfsm_force_down s).lfsm_queue = [] ∧
    (lfsm_force_down s).lfsm_work_active = false ∧
    (lfsm_force_down s).pending_dispatch = false ∧
    (lfsm_force_down s).pending_up_work = false ∧
    (lfsm_force_down s).pending_down_work = false ∧
    (lfsm_force_down s).timeout_armed = none ∧
    lfsm_force_down (lfsm_force_down s) = lfsm_force_down s :=
  ⟨rfl, rfl, rfl, rfl, rfl, rfl, rfl, rfl⟩

end LFSM

namespace LFSM

open link_state lfsm_action_type LfsmEvent LockOp

/-- Claim C6: enqueue_lfsm_action schedules the dispatcher exactly when
lfsm_work_active is false (setting the flag in the same critical
section); while the flag is already true a successful enqueue schedules
nothing extra; and the dispatcher body clears the flag exactly when it
finds the queue empty. -/
theorem c6_single_live_dispatcher (s : LfsmState) (ty : lfsm_action_type) :
    (s.lfsm_work_active = false → s.lfsm_queue.length < 16 →
       (enqueue_lfsm_action ty s).1.lfsm_work_active = true ∧
       (enqueue_lfsm_action ty s).1.pending_dispatch = true) ∧
    (s.lfsm_work_active = true →
       (enqueue_lfsm_action ty s).1.lfsm_work_active = true ∧
       (enqueue_lfsm_action ty s).1.pending_dispatch =
         s.pending_dispatch) ∧
    (s.lfsm_queue = [] →
       (lfsm_dispatch_worker s).lfsm_work_active = false) ∧
    (s.lfsm_queue ≠ [] →
       (lfsm_dispatch_worker s).lfsm_work_active = s.lfsm_work_active) := by
  refine ⟨?_, ?_, ?_, ?_⟩
  · intro ha hl
    constructor <;> simp [enqueue_lfsm_action, ha, hl]
  · intro ha
    constructor <;>
      · unfold enqueue_lfsm_action
        by_cases hl : s.lfsm_queue.length < 16 <;> simp [ha, hl]
  · intro hq
    unfold lfsm_dispatch_worker
    rw [hq]
  · intro hq
    unfold lfsm_dispatch_worker
    cases hl : s.lfsm_queue with
    | nil => exact absurd hl hq
    | cons act rest => cases act <;> rfl

/-- Concrete instantiation of the dispatcher-ownership protocol on the
initial state. -/
theorem c6_single_live_dispatcher_witness :
    ((enqueue_lfsm_action LFSM_ACT_LINK_UP initState).1.lfsm_work_active
       = true ∧
     (enqueue_lfsm_action LFSM_ACT_LINK_UP initState).1.pending_dispatch
       = true) ∧
    (lfsm_dispatch_worker initState).lfsm_work_active = false :=
  ⟨(c6_single_live_dispatcher initState LFSM_ACT_LINK_UP).1 rfl
     (by decide),
   (c6_single_live_dispatcher initState LFSM_ACT_LINK_UP).2.2.1 rfl⟩

/-- Claim C7: the dispatcher pops the front of the FIFO; a BringUp action
sets the state to Starting and schedules the up worker, a BringDown sets
Stopping and schedules the down worker, in both cases arming the
watchdog with LFSM_TIMEOUT_MS, which is exactly three times the
simulated latency LFSM_DELAY_MS; on an empty queue it only clears the
active flag. -/
theorem c7_dispatcher_pops_fifo_arms_watchdog (s : LfsmState) :
    (s.lfsm_queue = [] →
       lfsm_dispatch_worker s = { s with lfsm_work_active := false }) ∧
    (∀ rest : List lfsm_action_type,
       s.lfsm_queue = LFSM_ACT_LINK_UP :: rest →
       lfsm_dispatch_worker s =
         { s with
             lfsm_queue := rest
             link_lfsm_state := LINK_STARTING
             timeout_armed := some LFSM_TIMEOUT_MS
             pending_up_work := true }) ∧
    (∀ rest : List lfsm_action_type,
       s.lfsm_queue = LFSM_ACT_LINK_DOWN :: rest →
       lfsm_dispatch_worker s =
         { s with
             lfsm_queue := rest
             link_lfsm_state := LINK_STOPPING
             timeout_armed := some LFSM_TIMEOUT_MS
             pending_down_work := true }) ∧
    LFSM_TIMEOUT_MS = 3 * LFSM_DELAY_MS := by
  refine ⟨?_, ?_, ?_, rfl⟩ <;>
    first
    | (intro hq
       unfold lfsm_dispatch_worker
       rw [hq])
    | (intro rest hq
       unfold lfsm_dispatch_worker
       rw [hq])

/-- Concrete instantiation of the dispatcher contract on a
single-element queue. -/
theorem c7_dispatcher_pops_fifo_arms_watchdog_witness :
    lfsm_dispatch_worker
        { lfsm_queue := [LFSM_ACT_LINK_UP]
          link_lfsm_state := LINK_DOWN
          lfsm_work_active := true
          pending_dispatch := false
          pending_up_work := false
          pending_down_work := false
          timeout_armed := none } =
      { lfsm_queue := []
        link_lfsm_state := LINK_STARTING
        lfsm_work_active := true
        pending_dispatch := false
        pending_up_work := true
        pending_down_work := false
        timeout_armed := some LFSM_TIMEOUT_MS } :=
  (c7_dispatcher_pops_fifo_arms_watchdog _).2.1 [] rfl

end LFSM

namespace LFSM

open link_state lfsm_action_type LfsmEvent LockOp

/-- The queue length after one enqueue: grows by one below capacity, is
unchanged at capacity. -/
theorem enqueue_len (ty : lfsm_action_type) (s : LfsmState) :
    (enqueue_lfsm_action ty s).1.lfsm_queue.length =
      if s.lfsm_queue.length < 16 then s.lfsm_queue.length + 1
      else s.lfsm_queue.length := by
  unfold enqueue_lfsm_action
  by_cases hl : s.lfsm_queue.length < 16 <;>
    by_cases ha : s.lfsm_work_active <;> simp [hl, ha]

/-- The return code of one enqueue: 0 below capacity, -ENOSPC at
capacity. -/
theorem enqueue_ret (ty : lfsm_action_type) (s : LfsmState) :
    (enqueue_lfsm_action ty s).2 =
      if s.lfsm_queue.length < 16 then 0 else -ENOSPC := by
  unfold enqueue_lfsm_action
  by_cases hl : s.lfsm_queue.length < 16 <;>
    by_cases ha : s.lfsm_work_active <;> simp [hl, ha]

/-- While the whole batch fits under the capacity, every enqueue in a
run succeeds and the queue grows by the batch length. -/
theorem enqueueRun_all_ok :
    ∀ (acts : List lfsm_action_type) (s : LfsmState),
      s.lfsm_queue.length + acts.length ≤ 16 →
      (∀ r ∈ (enqueueRun acts s).2, r = 0) ∧
      (enqueueRun acts s).1.lfsm_queue.length =
        s.lfsm_queue.length + acts.length := by
  intro acts
  induction acts with
  | nil =>
      intro s h
      constructor
      · intro r hr
        simp [enqueueRun] at hr
      · simp [enqueueRun]
  | cons a rest ih =>
      intro s h
      have hl : s.lfsm_queue.length < 16 := by
        simp at h
        omega
      have hlen : (enqueue_lfsm_action a s).1.lfsm_queue.length =
          s.lfsm_queue.length + 1 := by
        rw [enqueue_len, if_pos hl]
      have hrest := ih (enqueue_lfsm_action a s).1 (by
        rw [hlen]
        simp at h ⊢
        omega)
      constructor
      · intro r hr
        simp only [enqueueRun, List.mem_cons] at hr
        rcases hr with hr | hr
        · rw [hr, enqueue_ret, if_pos hl]
        · exact hrest.1 r hr
      · simp only [enqueueRun]
        rw [hrest.2, hlen]
        simp
        omega
  
/-- A run of enqueues never pushes the queue length above 16. -/
theorem enqueueRun_cap :
    ∀ (acts : List lfsm_action_type) (s : LfsmState),
      s.lfsm_queue.length ≤ 16 →
      (enqueueRun acts s).1.lfsm_queue.length ≤ 16 := by
  intro acts
  induction acts with
  | nil =>
      intro s h
      simpa [enqueueRun]
  | cons a rest ih =>
      intro s h
      have hnext : (enqueue_lfsm_action a s).1.lfsm_queue.length ≤ 16 := by
        rw [enqueue_len]
        by_cases hl : s.lfsm_queue.length < 16 <;> simp [hl] <;> omega
      simpa only [enqueueRun] using ih (enqueue_lfsm_action a s).1 hnext

end LFSM

namespace LFSM

open link_state lfsm_action_type LfsmEvent LockOp

/-- Claim C9: the queue never holds more than 16 actions; with nothing
drained, any batch of 16 enqueues from the initial state all succeed and
fill the queue, and a 17th enqueue returns -ENOSPC leaving the whole
state (in particular the 16 queued entries) untouched. -/
theorem c9_queue_capacity_16 :
    (∀ (acts : List lfsm_action_type) (s : LfsmState),
       s.lfsm_queue.length ≤ 16 →
       (enqueueRun acts s).1.lfsm_queue.length ≤ 16) ∧
    (∀ acts : List lfsm_action_type, acts.length = 16 →
       (∀ r ∈ (enqueueRun acts initState).2, r = 0) ∧
       (enqueueRun acts initState).1.lfsm_queue.length = 16) ∧
    (∀ (acts : List lfsm_action_type) (ty : lfsm_action_type),
       acts.length = 16 →
       (enqueue_lfsm_action ty (enqueueRun acts initState).1).2 = -ENOSPC ∧
       (enqueue_lfsm_action ty (enqueueRun acts initState).1).1 =
         (enqueueRun acts initState).1) := by
  have hfull : ∀ acts : List lfsm_action_type, acts.length = 16 →
      (∀ r ∈ (enqueueRun acts initState).2, r = 0) ∧
      (enqueueRun acts initState).1.lfsm_queue.length = 16 := by
    intro acts hla
    have h := enqueueRun_all_ok acts initState (by simp [initState, hla])
    refine ⟨h.1, ?_⟩
    rw [h.2]
    simp [initState, hla]
  refine ⟨enqueueRun_cap, hfull, ?_⟩
  intro acts ty hla
  have hlen := (hfull acts hla).2
  have hnl : ¬ (enqueueRun acts initState).1.lfsm_queue.length < 16 := by
    omega
  constructor
  · rw [enqueue_ret, if_neg hnl]
  · unfold enqueue_lfsm_action
    rw [if_neg hnl]

/-- Concrete instantiation of the capacity bound: 16 BringUp enqueues
from the initial state all fit, and the 17th call fails with -ENOSPC. -/
theorem c9_queue_capacity_16_witness :
    ((enqueueRun (List.replicate 16 LFSM_ACT_LINK_UP)
        initState).1.lfsm_queue.length ≤ 16) ∧
    ((enqueueRun (List.replicate 16 LFSM_ACT_LINK_UP)
        initState).1.lfsm_queue.length = 16) ∧
    (enqueue_lfsm_action LFSM_ACT_LINK_DOWN
        (enqueueRun (List.replicate 16 LFSM_ACT_LINK_UP) initState).1).2 =
      -ENOSPC :=
  ⟨c9_queue_capacity_16.1 (List.replicate 16 LFSM_ACT_LINK_UP) initState
     (by decide),
   (c9_queue_capacity_16.2.1 (List.replicate 16 LFSM_ACT_LINK_UP)
     (by decide)).2,
   (c9_queue_capacity_16.2.2 (List.replicate 16 LFSM_ACT_LINK_UP)
     LFSM_ACT_LINK_DOWN (by decide)).1⟩

/-- Claim C10: a call to enqueue_lfsm_action with the queue at capacity
returns -ENOSPC and returns the state completely unchanged — queue
contents, link state, active flag and pending work items all keep their
prior values, and no dispatcher run is scheduled. -/
theorem c10_enqueue_full_atomic_failure (s : LfsmState)
    (ty : lfsm_action_type) (h : 16 ≤ s.lfsm_queue.length) :
    enqueue_lfsm_action ty s = (s, -ENOSPC) := by
  unfold enqueue_lfsm_action
  rw [if_neg (by omega)]

/-- Concrete instantiation of the atomic enqueue failure on a full
queue. -/
theorem c10_enqueue_full_atomic_failure_witness :
    enqueue_lfsm_action LFSM_ACT_LINK_UP
        { lfsm_queue := List.replicate 16 LFSM_ACT_LINK_DOWN
          link_lfsm_state := LINK_UP
          lfsm_work_active := true
          pending_dispatch := false
          pending_up_work := false
          pending_down_work := true
          timeout_armed := some LFSM_TIMEOUT_MS } =
      ({ lfsm_queue := List.replicate 16 LFSM_ACT_LINK_DOWN
         link_lfsm_state := LINK_UP
         lfsm_work_active := true
         pending_dispatch := false
         pending_up_work := false
         pending_down_work := true
         timeout_armed := some LFSM_TIMEOUT_MS }, -ENOSPC) :=
  c10_enqueue_full_atomic_failure _ LFSM_ACT_LINK_UP (by decide)

end LFSM

namespace LFSM

open link_state lfsm_action_type LfsmEvent LockOp

/-- Claim C1: in the lock-abstracted model the request entry points have
exactly the claimed result contract (0 from Down and Up, -EBUSY from the
transient states, -ENOSPC on a full queue); but on the enqueue paths the
source re-acquires lfsm_lock, which lfsm_link_up and lfsm_link_down
already hold, inside enqueue_lfsm_action — a non-recursive spinlock
self-deadlock, so those calls never actually return the claimed success.
The other paths keep the lock discipline. -/
theorem c1_request_up_down_contract_and_deadlock :
    noNestedLock (lfsm_link_up_trace LINK_DOWN) = false ∧
    noNestedLock (lfsm_link_down_trace LINK_UP) = false ∧
    noNestedLock (lfsm_link_up_trace LINK_UP) = true ∧
    noNestedLock (lfsm_link_up_trace LINK_STARTING) = true ∧
    noNestedLock (lfsm_link_up_trace LINK_STOPPING) = true ∧
    noNestedLock (lfsm_link_down_trace LINK_DOWN) = true ∧
    noNestedLock (lfsm_link_down_trace LINK_STARTING) = true ∧
    noNestedLock (lfsm_link_down_trace LINK_STOPPING) = true ∧
    (lfsm_link_up initState).2 = 0 ∧
    (lfsm_link_up initState).1.lfsm_queue = [LFSM_ACT_LINK_UP] ∧
    (lfsm_link_up { initState with link_lfsm_state := LINK_UP }).2 = 0 ∧
    (lfsm_link_up { initState with link_lfsm_state := LINK_UP }).1 =
      { initState with link_lfsm_state := LINK_UP } ∧
    (lfsm_link_up
      { initState with link_lfsm_state := LINK_STARTING }).2 = -EBUSY ∧
    (lfsm_link_up
      { initState with link_lfsm_state := LINK_STOPPING }).2 = -EBUSY ∧
    (lfsm_link_down { initState with link_lfsm_state := LINK_UP }).2 = 0 ∧
    (lfsm_link_down initState).2 = 0 ∧
    (lfsm_link_down initState).1 = initState ∧
    (lfsm_link_down
      { initState with link_lfsm_state := LINK_STARTING }).2 = -EBUSY ∧
    (lfsm_link_down
      { initState with link_lfsm_state := LINK_STOPPING }).2 = -EBUSY ∧
    (enqueue_lfsm_action LFSM_ACT_LINK_UP
      { initState with
          lfsm_queue := List.replicate 16 LFSM_ACT_LINK_UP }).2 =
      -ENOSPC := by decide

/-- Claim C8: lfsm_force_down keeps the discipline (it cancels before
taking the lock) and the dispatcher and get_state never block, but the
watchdog handler issues two blocking cancel_work_sync calls while
holding lfsm_lock, both transition workers issue a blocking
cancel_delayed_work_sync while holding it, and the watchdog firing logic
is not block-free. -/
theorem c8_blocking_cancellation_under_lock :
    blockFreeUnderLock lfsm_timeout_worker_trace = false ∧
    blockFreeUnderLock lfsm_up_worker_trace = false ∧
    blockFreeUnderLock lfsm_down_worker_trace = false ∧
    blockFreeUnderLock lfsm_force_down_trace = true ∧
    blockFreeUnderLock (lfsm_dispatch_worker_trace true) = true ∧
    blockFreeUnderLock (lfsm_dispatch_worker_trace false) = true ∧
    neverBlocks (lfsm_dispatch_worker_trace true) = true ∧
    neverBlocks (lfsm_dispatch_worker_trace false) = true ∧
    neverBlocks lfsm_get_link_state_trace = true ∧
    neverBlocks lfsm_timeout_worker_trace = false := by decide

end LFSM
